import Mathlib

/-!
Verification development for the Schelling segregation model repository
(repast4py implementation in `lecture_03/schelling.py`, mesa implementation in
`lectures/lec04/schelling/`, and the two Morans I scripts in
`lecture_03/scripts/`).  Python code is shallowly embedded: machine floats are
modelled by exact rationals, numpy matrices by total functions with explicit
bounds, and the module-level agent cache by an explicit association list.
-/

/-- Embedding of the Python builtin `range(a, b)` over integers:
the list `a, a+1, ..., b-1`. -/
def pyRange (a b : ℤ) : List ℤ :=
  (List.range (b - a).toNat).map (fun (i : ℕ) => a + (i : ℤ))

namespace L3

/-- Embedding of `get_neighborhood_offsets` branch "12" in
`lecture_03/schelling.py` (extended Von Neumann radius 2): loops `x` and `y`
over `range(-2, 3)` and keeps pairs with `0 < abs(x) + abs(y) <= 2`,
collecting `x` into `xs` (the `mo` array) and `y` into `ys` (the `no` array);
here the two parallel arrays are zipped into `(dx, dy)` pairs. -/
def vnSquareOffsets (r : ℤ) : List (ℤ × ℤ) :=
  (pyRange (-r) (r + 1)).flatMap (fun x =>
    (pyRange (-r) (r + 1)).filterMap (fun y =>
      if 0 < (x.natAbs + y.natAbs : ℤ) ∧ (x.natAbs + y.natAbs : ℤ) ≤ r then
        some (x, y)
      else none))

/-- Embedding of the `get_neighborhood_offsets` branches "24", "48", "80" in
`lecture_03/schelling.py` (Moore neighborhoods of radius 2, 3, 4): loops `x`
and `y` over `range(-r, r+1)` and keeps every pair except `(0, 0)`. -/
def mooreSquareOffsets (r : ℤ) : List (ℤ × ℤ) :=
  (pyRange (-r) (r + 1)).flatMap (fun x =>
    (pyRange (-r) (r + 1)).filterMap (fun y =>
      if x = 0 ∧ y = 0 then none else some (x, y)))

/-- Embedding of `get_neighborhood_offsets` from `lecture_03/schelling.py`.
The Python function returns two parallel int32 arrays `mo` (x offsets) and
`no` (y offsets); here they are zipped into `(dx, dy)` pairs, in the same
order.  Branches: "4" and the default "8" are literal arrays, "12" is the
Manhattan-filtered loop, "24"/"48"/"80" are the square loops excluding the
origin.  Any unrecognized name silently falls through to the default Moore-8
offsets (there is no error branch in the source). -/
def get_neighborhood_offsets (name : String) : List (ℤ × ℤ) :=
  if name = "4" then
    [(0, 1), (0, -1), (1, 0), (-1, 0)]
  else if name = "12" then
    vnSquareOffsets 2
  else if name = "24" then
    mooreSquareOffsets 2
  else if name = "48" then
    mooreSquareOffsets 3
  else if name = "80" then
    mooreSquareOffsets 4
  else
    [(-1, 1), (0, 1), (1, 1), (-1, 0), (1, 0), (-1, -1), (0, -1), (1, -1)]

end L3

namespace Lec04

/-- The dispatcher argument of `get_neighborhood_offsets` in
`lectures/lec04/schelling/neighborhoods.py`.  The Python enum
`NeighborhoodType` has the three members below; because Python is dynamically
typed the dispatcher can also receive any other value, modelled by
`invalid tag`, which reaches the `raise ValueError` branch. -/
inductive NeighborhoodKind where
  | von_neumann
  | moore
  | extended
  | invalid (tag : String)
deriving DecidableEq

/-- Embedding of `get_von_neumann_offsets` from
`lectures/lec04/schelling/neighborhoods.py`: loops `dx`, `dy` over
`range(-radius, radius+1)` and keeps pairs whose Manhattan distance
`abs(dx) + abs(dy)` is in `(0, radius]`. -/
def get_von_neumann_offsets (radius : ℤ) : List (ℤ × ℤ) :=
  (pyRange (-radius) (radius + 1)).flatMap (fun dx =>
    (pyRange (-radius) (radius + 1)).filterMap (fun dy =>
      if 0 < (dx.natAbs + dy.natAbs : ℤ) ∧ (dx.natAbs + dy.natAbs : ℤ) ≤ radius then
        some (dx, dy)
      else none))

/-- Embedding of `get_moore_offsets` from
`lectures/lec04/schelling/neighborhoods.py`: loops `dx`, `dy` over
`range(-radius, radius+1)`, skips `(0, 0)`, and keeps pairs whose Chebyshev
distance `max(abs(dx), abs(dy))` is at most `radius`. -/
def get_moore_offsets (radius : ℤ) : List (ℤ × ℤ) :=
  (pyRange (-radius) (radius + 1)).flatMap (fun dx =>
    (pyRange (-radius) (radius + 1)).filterMap (fun dy =>
      if dx = 0 ∧ dy = 0 then none
      else if (max dx.natAbs dy.natAbs : ℤ) ≤ radius then some (dx, dy)
      else none))

/-- Embedding of `get_extended_offsets`: delegates to `get_moore_offsets`. -/
def get_extended_offsets (radius : ℤ) : List (ℤ × ℤ) :=
  get_moore_offsets radius

/-- Embedding of the dispatcher `get_neighborhood_offsets` from
`lectures/lec04/schelling/neighborhoods.py`.  For the `EXTENDED` kind the
radius argument is replaced by `radius if radius > 1 else 2`; an
unrecognized value raises `ValueError` (modelled as `Except.error`). -/
def get_neighborhood_offsets : NeighborhoodKind → ℤ → Except String (List (ℤ × ℤ))
  | .von_neumann, radius => .ok (get_von_neumann_offsets radius)
  | .moore, radius => .ok (get_moore_offsets radius)
  | .extended, radius => .ok (get_extended_offsets (if 1 < radius then radius else 2))
  | .invalid tag, _ => .error ("Unknown neighborhood type: " ++ tag)

end Lec04

/-- A dense grid snapshot, embedding the numpy matrix handed to
`calculate_morans_i` (shape `rows` by `cols`; a `none` entry is the NaN
marker for an empty cell; entries outside the bounds are never read by the
metric because every access is bounds-masked). -/
structure Grid where
  rows : ℕ
  cols : ℕ
  val : ℤ → ℤ → Option ℚ

/-- The index set of the matrix: all `(row, col)` pairs inside the bounds. -/
def Grid.cells (g : Grid) : Finset (ℤ × ℤ) :=
  Finset.Icc 0 ((g.rows : ℤ) - 1) ×ˢ Finset.Icc 0 ((g.cols : ℤ) - 1)

/-- The validity mask `~np.isnan(grid_matrix)` (combined with the bounds
check `0 <= r < rows and 0 <= c < cols` that numpy indexing provides
implicitly): true exactly on in-bounds non-empty cells. -/
def Grid.mask (g : Grid) (r c : ℤ) : Bool :=
  decide (0 ≤ r) && decide (r < (g.rows : ℤ)) &&
    decide (0 ≤ c) && decide (c < (g.cols : ℤ)) && (g.val r c).isSome

/-- The numeric value stored at a cell (only ever used under the mask). -/
def Grid.cellv (g : Grid) (r c : ℤ) : ℚ :=
  (g.val r c).getD 0

/-- The literal `neighbors_offsets` list of the nested-loop implementation in
`lecture_03/scripts/final_stats.py` (the 8 Moore offsets, row then column). -/
def neighbors_offsets : List (ℤ × ℤ) :=
  [(-1, -1), (-1, 0), (-1, 1), (0, -1), (0, 1), (1, -1), (1, 0), (1, 1)]

namespace FinalStats

/-- `N = len(values)` where `values = grid_matrix[valid_mask]`: the number of
valid (in-bounds, non-NaN) cells. -/
def N (g : Grid) : ℕ :=
  ((g.cells).filter (fun p => g.mask p.1 p.2 = true)).card

/-- `mean_val = np.mean(values)`: sum of the valid values divided by `N`. -/
def mean (g : Grid) : ℚ :=
  (∑ p ∈ (g.cells).filter (fun p => g.mask p.1 p.2 = true), g.cellv p.1 p.2) / (N g)

/-- `denom = np.sum((values - mean_val) ** 2)`. -/
def denom (g : Grid) : ℚ :=
  ∑ p ∈ (g.cells).filter (fun p => g.mask p.1 p.2 = true), (g.cellv p.1 p.2 - mean g) ^ 2

/-- The numerator accumulated by the nested loops of
`final_stats.calculate_morans_i`: for every valid cell `(r, c)` and every
offset `(dr, dc)` whose target is in bounds and non-NaN, add
`(val_i - mean) * (val_j - mean)`. -/
def num (g : Grid) : ℚ :=
  ∑ p ∈ g.cells,
    if g.mask p.1 p.2 = true then
      (neighbors_offsets.map (fun d =>
        if g.mask (p.1 + d.1) (p.2 + d.2) = true then
          (g.cellv p.1 p.2 - mean g) * (g.cellv (p.1 + d.1) (p.2 + d.2) - mean g)
        else 0)).sum
    else 0

/-- The weight total `W` accumulated by the same nested loops: one unit per
ordered pair of a valid cell and a valid in-bounds Moore neighbor. -/
def W (g : Grid) : ℚ :=
  ∑ p ∈ g.cells,
    if g.mask p.1 p.2 = true then
      (neighbors_offsets.map (fun d =>
        if g.mask (p.1 + d.1) (p.2 + d.2) = true then (1 : ℚ) else 0)).sum
    else 0

/-- Embedding of `calculate_morans_i` from
`lecture_03/scripts/final_stats.py` (nested-loop implementation).  Returns
`none` for the `np.nan` sentinel. -/
def calculate_morans_i (g : Grid) : Option ℚ :=
  if N g < 2 then none
  else if denom g = 0 then none
  else if W g = 0 then none
  else some (((N g : ℚ) / W g) * (num g / denom g))

end FinalStats

namespace AnalysisUtils

/-- `N = np.sum(mask)`: count of valid cells, computed as a sum of the 0/1
mask over the whole matrix. -/
def N (g : Grid) : ℕ :=
  ∑ p ∈ g.cells, if g.mask p.1 p.2 = true then 1 else 0

/-- `values` after `values[~mask] = 0`: the matrix with NaN entries zeroed. -/
def values0 (g : Grid) (r c : ℤ) : ℚ :=
  if g.mask r c = true then g.cellv r c else 0

/-- `mean_val = np.sum(values) / N`. -/
def mean (g : Grid) : ℚ :=
  (∑ p ∈ g.cells, values0 g p.1 p.2) / (N g)

/-- The deviation matrix `z`: `z[mask] = grid_matrix[mask] - mean_val`, zero
elsewhere (also zero outside the matrix, matching the zero-fill boundary of
the convolution). -/
def z (g : Grid) (r c : ℤ) : ℚ :=
  if g.mask r c = true then g.cellv r c - mean g else 0

/-- `denom = np.sum(z[mask] ** 2)`. -/
def denom (g : Grid) : ℚ :=
  ∑ p ∈ g.cells, if g.mask p.1 p.2 = true then (z g p.1 p.2) ^ 2 else 0

/-- The 3x3 Moore `kernel = [[1, 1, 1], [1, 0, 1], [1, 1, 1]]`. -/
def kernel : List (List ℚ) :=
  [[1, 1, 1], [1, 0, 1], [1, 1, 1]]

/-- Kernel entry at row `i`, column `j` (zero out of range). -/
def kAt (i j : ℕ) : ℚ :=
  (kernel.getD i []).getD j 0

/-- `scipy.signal.convolve2d(f, kernel, mode="same", boundary="fill",
fillvalue=0)` for the fixed 3x3 kernel, evaluated at output position
`(r, c)`: the kernel is flipped, so entry `(i, j)` multiplies the input at
`(r + 1 - i, c + 1 - j)`, with the input extended by zero. -/
def convolve2dSame3 (f : ℤ → ℤ → ℚ) (r c : ℤ) : ℚ :=
  ∑ i ∈ Finset.range 3, ∑ j ∈ Finset.range 3,
    kAt i j * f (r + 1 - (i : ℤ)) (c + 1 - (j : ℤ))

/-- `W = np.sum(valid_neighbor_counts[mask])` where `valid_neighbor_counts`
is the convolution of the 0/1 mask with the kernel. -/
def W (g : Grid) : ℚ :=
  ∑ p ∈ g.cells,
    if g.mask p.1 p.2 = true then
      convolve2dSame3 (fun r c => if g.mask r c = true then (1 : ℚ) else 0) p.1 p.2
    else 0

/-- `num = np.sum(z[mask] * neighbor_z_sum[mask])` where `neighbor_z_sum` is
the convolution of `z` with the kernel. -/
def num (g : Grid) : ℚ :=
  ∑ p ∈ g.cells,
    if g.mask p.1 p.2 = true then z g p.1 p.2 * convolve2dSame3 (z g) p.1 p.2
    else 0

/-- Embedding of `calculate_morans_i` from
`lecture_03/scripts/analysis_utils.py` (convolution implementation). -/
def calculate_morans_i (g : Grid) : Option ℚ :=
  if N g < 2 then none
  else if denom g = 0 then none
  else if W g = 0 then none
  else some (((N g : ℚ) / W g) * (num g / denom g))

end AnalysisUtils

/-- A 2x2 checkerboard test grid with all four cells occupied. -/
def testGrid : Grid :=
  ⟨2, 2, fun r c => if (r = 0 ∧ c = 0) ∨ (r = 1 ∧ c = 1) then some 1 else some (-1)⟩

namespace L3

/-- Embedding of the numba `GridNghFinder` state from
`lecture_03/schelling.py`: the two offset arrays and the grid bounds. -/
structure GridNghFinder where
  mo : List ℤ
  no : List ℤ
  xmin : ℤ
  ymin : ℤ
  xmax : ℤ
  ymax : ℤ

/-- Embedding of `GridNghFinder.find`: adds the center to every offset, then
filters the coordinate pairs first by the x-range `[xmin, xmax)` and then by
the y-range `[ymin, ymax)` (sticky border: out-of-range coordinates are
dropped, never wrapped).  The source carries the two coordinate arrays in
parallel and filters them with the same boolean vectors; here they are
zipped into pairs, and the constant third component `0` of the returned
stack is omitted. -/
def GridNghFinder.find (f : GridNghFinder) (x y : ℤ) : List (ℤ × ℤ) :=
  let xs := f.mo.map (· + x)
  let ys := f.no.map (· + y)
  let step1 := (xs.zip ys).filter (fun p => decide (f.xmin ≤ p.1 ∧ p.1 < f.xmax))
  step1.filter (fun p => decide (f.ymin ≤ p.2 ∧ p.2 < f.ymax))

/-- Embedding of the satisfaction rule of `SchellingAgent.step` in
`lecture_03/schelling.py`: an always-happy agent is immediately happy;
otherwise, with a positive neighbor total, happy iff
`similar / total_neighbors >= threshold`; with no neighbors, happy
(vacuous satisfaction). -/
def stepHappy (always_happy : Bool) (similar total_neighbors : ℕ) (threshold : ℚ) : Bool :=
  if always_happy then true
  else if 0 < total_neighbors then
    decide ((similar : ℚ) / (total_neighbors : ℚ) ≥ threshold)
  else true

/-- Embedding of `SchellingAgent.move` from `lecture_03/schelling.py`.
`draws i` is the coordinate produced by the i-th call to
`grid.get_random_local_pt(rng)`, and `occupied` is the occupancy test
`any(model.grid.get_agents(dest))`.  The loop body for attempts
`i, i+1, ..., i+fuel-1`: take the next draw; if it is vacant, move there and
return; after the final attempt, stay at the current position `p`. -/
def moveLoop (occupied : ℤ × ℤ → Bool) (draws : ℕ → ℤ × ℤ) (p : ℤ × ℤ) :
    ℕ → ℕ → ℤ × ℤ
  | _, 0 => p
  | i, fuel + 1 =>
    if occupied (draws i) then moveLoop occupied draws p (i + 1) fuel
    else draws i

/-- `SchellingAgent.move`: up to 100 attempts (`for _ in range(100)`),
starting from draw 0. -/
def move (occupied : ℤ × ℤ → Bool) (draws : ℕ → ℤ × ℤ) (p : ℤ × ℤ) : ℤ × ℤ :=
  moveLoop occupied draws p 0 100

/-- Embedding of `SchellingAgent` state in `lecture_03/schelling.py`.
`a_id` and `rank` are the constructor arguments forming the repast4py uid
together with the constant agent type tag `SchellingAgent.TYPE = 0`. -/
structure SchellingAgent where
  a_id : ℤ
  rank : ℤ
  agent_type : ℤ
  threshold : ℚ
  happy : Bool
  always_happy : Bool
deriving DecidableEq

/-- The repast4py uid of an agent: `(id, type, rank)` with type tag 0. -/
def SchellingAgent.uid (a : SchellingAgent) : ℤ × ℤ × ℤ :=
  (a.a_id, 0, a.rank)

/-- The tuple produced by `SchellingAgent.save`:
`(uid, agent_type, threshold, happy, always_happy)`. -/
structure Record where
  uid : ℤ × ℤ × ℤ
  agent_type : ℤ
  threshold : ℚ
  happy : Bool
  always_happy : Bool
deriving DecidableEq

/-- Embedding of `SchellingAgent.save`. -/
def SchellingAgent.save (a : SchellingAgent) : Record :=
  ⟨a.uid, a.agent_type, a.threshold, a.happy, a.always_happy⟩

/-- The module-level `agent_cache` dictionary, modelled as an association
list from uid to the cached agent instance. -/
abbrev AgentCache := List ((ℤ × ℤ × ℤ) × SchellingAgent)

/-- Dictionary lookup `agent_cache[uid]` (`uid in agent_cache` test). -/
def cacheLookup (cache : AgentCache) (u : ℤ × ℤ × ℤ) : Option SchellingAgent :=
  (cache.find? (fun e => decide (e.1 = u))).map (·.2)

/-- In-place mutation of the cached instance under key `u` (Python mutates
the shared object, so the dictionary entry changes too). -/
def cacheSet (cache : AgentCache) (u : ℤ × ℤ × ℤ) (a : SchellingAgent) : AgentCache :=
  cache.map (fun e => if e.1 = u then (u, a) else e)

/-- Embedding of `restore_agent` from `lecture_03/schelling.py`.  On a cache
hit the cached instance is reused; on a miss a new agent is built from the
record fields (`SchellingAgent(uid[0], uid[2], agent_data[1], agent_data[2],
always_happy)`, whose constructor initializes `happy = False`) and cached.
In both cases `agent.happy = agent_data[3]` is then assigned on the shared
instance.  The function returns the resulting agent together with the
updated cache state. -/
def restore_agent (d : Record) (cache : AgentCache) : SchellingAgent × AgentCache :=
  match cacheLookup cache d.uid with
  | some agent =>
    let agent' := { agent with happy := d.happy }
    (agent', cacheSet cache d.uid agent')
  | none =>
    let agent : SchellingAgent :=
      ⟨d.uid.1, d.uid.2.2, d.agent_type, d.threshold, false, d.always_happy⟩
    let agent' := { agent with happy := d.happy }
    (agent', (d.uid, agent') :: cache)

/-- Scheduler status, following the state machine of spec section 4.5. -/
inductive SchedStatus where
  | Running
  | Terminating
  | Terminated
deriving DecidableEq

/-- Scheduler configuration: `params["stop.at"]`, the maximum tick count. -/
structure SchedConfig where
  maxTick : ℕ

/-- Scheduler state: the current tick counter and the machine status. -/
structure SchedState where
  tick : ℕ
  status : SchedStatus
deriving DecidableEq

/-- Modelled from the spec: the repast4py `schedule_runner` driving
`Model.step` is library code not present under `src/`, so the tick loop is
modelled from spec section 4.5 combined with the stop logic that IS in
`Model.step` (`lecture_03/schelling.py`): while `Running`, execute the tick;
`total_unhappy = comm.allreduce(local_unhappy)` for that tick is given by
the trace `unhappyAt`; if it is 0, transition to `Terminating`
(`runner.stop()`); else if the configured maximum tick count
(`params["stop.at"]`, `runner.schedule_stop`) is reached, also transition to
`Terminating`; otherwise stay `Running` and advance the tick counter.
`Terminating` finalizes and becomes `Terminated`, which is terminal. -/
def schedStep (cfg : SchedConfig) (unhappyAt : ℕ → ℕ) (s : SchedState) : SchedState :=
  match s.status with
  | .Running =>
    if unhappyAt s.tick = 0 then { s with status := .Terminating }
    else if cfg.maxTick ≤ s.tick then { s with status := .Terminating }
    else { s with tick := s.tick + 1 }
  | .Terminating => { s with status := .Terminated }
  | .Terminated => s

/-- The initial running state: `schedule_repeating_event(1, 1, ...)` makes
tick 1 the first executed tick. -/
def schedInit : SchedState :=
  ⟨1, .Running⟩

/-- The scheduler state after `n` transition steps of a run. -/
def schedRun (cfg : SchedConfig) (unhappyAt : ℕ → ℕ) (n : ℕ) : SchedState :=
  (schedStep cfg unhappyAt)^[n] schedInit

end L3

namespace Lec04

/-- Embedding of `ThresholdUtility.calculate` from
`lectures/lec04/schelling/utility_classes.py`: utility 0 for a zero
neighbor total, otherwise 1 when `similar_count / total_count >= threshold`
and 0 when below. -/
def ThresholdUtility.calculate (threshold : ℚ) (similar_count total_count : ℕ) : ℚ :=
  if total_count = 0 then 0
  else if (similar_count : ℚ) / (total_count : ℚ) ≥ threshold then 1
  else 0

/-- Embedding of the satisfaction update in `SchellingAgent.assign_state`
(`lectures/lec04/schelling/agents.py`) for an agent whose utility function
is `ThresholdUtility`: `happy` iff the computed utility is at least the
fixed `happiness_threshold = 0.5`. -/
def agentHappy (threshold : ℚ) (similar_count total_count : ℕ) : Bool :=
  decide (ThresholdUtility.calculate threshold similar_count total_count ≥ 1 / 2)

/-- Embedding of the coordinate computation in `SchellingAgent.get_neighbors`
(`lectures/lec04/schelling/agents.py`): for each offset `(dx, dy)`, the
probed cell is `((x + dx) % width, (y + dy) % height)` — periodic boundary
conditions via the Python modulo, which for a positive modulus agrees with
the Euclidean `%` on `ℤ` used here. -/
def neighborCoords (offsets : List (ℤ × ℤ)) (width height : ℤ) (x y : ℤ) :
    List (ℤ × ℤ) :=
  offsets.map (fun d => ((x + d.1) % width, (y + d.2) % height))

end Lec04

/-- Manhattan distance of an offset from the origin. -/
def manhattan (p : ℤ × ℤ) : ℕ :=
  p.1.natAbs + p.2.natAbs

/-- Chebyshev distance of an offset from the origin. -/
def chebyshev (p : ℤ × ℤ) : ℕ :=
  max p.1.natAbs p.2.natAbs

/-- The Moore-8 offset list that the default branch of the lecture_03
`get_neighborhood_offsets` returns (the zipped `mo`/`no` literal arrays). -/
def moore8 : List (ℤ × ℤ) :=
  [(-1, 1), (0, 1), (1, 1), (-1, 0), (1, 0), (-1, -1), (0, -1), (1, -1)]

/-- A cache state is consistent with agent `a` when the entry under the uid
of `a` (if any) agrees with `a` on every field except possibly the mutable
`happy` flag.  This is an invariant of the program: all records carrying a
given uid originate from `SchellingAgent.save` on the one logical agent with
that uid, whose constructor-set fields are never reassigned. -/
def L3.cacheConsistent (a : L3.SchellingAgent) (cache : L3.AgentCache) : Prop :=
  ∀ b, L3.cacheLookup cache a.uid = some b →
    b.a_id = a.a_id ∧ b.rank = a.rank ∧ b.agent_type = a.agent_type ∧
      b.threshold = a.threshold ∧ b.always_happy = a.always_happy

section MembershipLemmas

lemma mem_pyRange {a b x : ℤ} : x ∈ pyRange a b ↔ a ≤ x ∧ x < b := by
  unfold pyRange
  simp only [List.mem_map, List.mem_range]
  constructor
  · rintro ⟨i, hi, rfl⟩
    omega
  · intro h
    exact ⟨(x - a).toNat, by omega, by omega⟩

lemma pyRange_eq_nil {a b : ℤ} (h : b ≤ a) : pyRange a b = [] := by
  unfold pyRange
  rw [show (b - a).toNat = 0 by omega]
  rfl

lemma mem_vn_offsets {r dx dy : ℤ} :
    (dx, dy) ∈ Lec04.get_von_neumann_offsets r ↔
      0 < manhattan (dx, dy) ∧ (manhattan (dx, dy) : ℤ) ≤ r := by
  unfold Lec04.get_von_neumann_offsets manhattan
  simp only [List.mem_flatMap, List.mem_filterMap, mem_pyRange]
  constructor
  · rintro ⟨x, hx, y, hy, h⟩
    by_cases hc : 0 < (x.natAbs + y.natAbs : ℤ) ∧ (x.natAbs + y.natAbs : ℤ) ≤ r
    · rw [if_pos hc] at h
      cases h
      exact ⟨by omega, by omega⟩
    · rw [if_neg hc] at h
      cases h
  · intro h
    refine ⟨dx, ⟨by omega, by omega⟩, dy, ⟨by omega, by omega⟩, ?_⟩
    rw [if_pos ⟨by omega, by omega⟩]

lemma mem_moore_offsets {r dx dy : ℤ} :
    (dx, dy) ∈ Lec04.get_moore_offsets r ↔
      0 < chebyshev (dx, dy) ∧ (chebyshev (dx, dy) : ℤ) ≤ r := by
  unfold Lec04.get_moore_offsets chebyshev
  simp only [List.mem_flatMap, List.mem_filterMap, mem_pyRange]
  constructor
  · rintro ⟨x, hx, y, hy, h⟩
    by_cases h0 : x = 0 ∧ y = 0
    · rw [if_pos h0] at h
      cases h
    · rw [if_neg h0] at h
      by_cases hc : (max x.natAbs y.natAbs : ℤ) ≤ r
      · rw [if_pos hc] at h
        cases h
        refine ⟨by omega, by omega⟩
      · rw [if_neg hc] at h
        cases h
  · intro h
    refine ⟨dx, ⟨by omega, by omega⟩, dy, ⟨by omega, by omega⟩, ?_⟩
    rw [if_neg (by omega), if_pos (by omega)]

lemma mem_vnSquareOffsets {r dx dy : ℤ} :
    (dx, dy) ∈ L3.vnSquareOffsets r ↔
      0 < manhattan (dx, dy) ∧ (manhattan (dx, dy) : ℤ) ≤ r := by
  unfold L3.vnSquareOffsets manhattan
  simp only [List.mem_flatMap, List.mem_filterMap, mem_pyRange]
  constructor
  · rintro ⟨x, hx, y, hy, h⟩
    by_cases hc : 0 < (x.natAbs + y.natAbs : ℤ) ∧ (x.natAbs + y.natAbs : ℤ) ≤ r
    · rw [if_pos hc] at h
      cases h
      exact ⟨by omega, by omega⟩
    · rw [if_neg hc] at h
      cases h
  · intro h
    refine ⟨dx, ⟨by omega, by omega⟩, dy, ⟨by omega, by omega⟩, ?_⟩
    rw [if_pos ⟨by omega, by omega⟩]

lemma mem_mooreSquareOffsets {r dx dy : ℤ} :
    (dx, dy) ∈ L3.mooreSquareOffsets r ↔
      0 < chebyshev (dx, dy) ∧ (chebyshev (dx, dy) : ℤ) ≤ r := by
  unfold L3.mooreSquareOffsets chebyshev
  simp only [List.mem_flatMap, List.mem_filterMap, mem_pyRange]
  constructor
  · rintro ⟨x, hx, y, hy, h⟩
    by_cases h0 : x = 0 ∧ y = 0
    · rw [if_pos h0] at h
      cases h
    · rw [if_neg h0] at h
      cases h
      refine ⟨by omega, by omega⟩
  · intro h
    refine ⟨dx, ⟨by omega, by omega⟩, dy, ⟨by omega, by omega⟩, ?_⟩
    rw [if_neg (by omega)]

lemma mem_lit4 {dx dy : ℤ} :
    (dx, dy) ∈ ([(0, 1), (0, -1), (1, 0), (-1, 0)] : List (ℤ × ℤ)) ↔
      0 < manhattan (dx, dy) ∧ (manhattan (dx, dy) : ℤ) ≤ 1 := by
  unfold manhattan
  simp only [List.mem_cons, List.not_mem_nil, or_false, Prod.mk.injEq]
  omega

lemma mem_moore8 {dx dy : ℤ} :
    (dx, dy) ∈ moore8 ↔ 0 < chebyshev (dx, dy) ∧ (chebyshev (dx, dy) : ℤ) ≤ 1 := by
  unfold moore8 chebyshev
  simp only [List.mem_cons, List.not_mem_nil, or_false, Prod.mk.injEq]
  omega

end MembershipLemmas

/-- Claim C6 (amended): for the lec04 generators with any positive radius,
membership in the offset list is exactly Manhattan distance in `(0, r]` for
von-Neumann and Chebyshev distance in `(0, r]` for Moore; for the EXTENDED
kind the dispatcher substitutes the effective radius
`radius if radius > 1 else 2`, so for radius 1 the returned set is the
Chebyshev ball of radius 2, not of radius 1; each lecture_03 string kind
matches its documented metric and fixed radius; and the zero offset is never
included for any kind. -/
theorem offsets_distance_thm :
    (∀ r : ℤ, 0 < r → ∀ dx dy : ℤ,
      ((dx, dy) ∈ Lec04.get_von_neumann_offsets r ↔
        0 < manhattan (dx, dy) ∧ (manhattan (dx, dy) : ℤ) ≤ r)) ∧
    (∀ r : ℤ, 0 < r → ∀ dx dy : ℤ,
      ((dx, dy) ∈ Lec04.get_moore_offsets r ↔
        0 < chebyshev (dx, dy) ∧ (chebyshev (dx, dy) : ℤ) ≤ r)) ∧
    (∀ r : ℤ, 0 < r →
      Lec04.get_neighborhood_offsets Lec04.NeighborhoodKind.extended r =
        Except.ok (Lec04.get_moore_offsets (if 1 < r then r else 2))) ∧
    (∀ dx dy : ℤ,
      ((dx, dy) ∈ L3.get_neighborhood_offsets "4" ↔
        0 < manhattan (dx, dy) ∧ (manhattan (dx, dy) : ℤ) ≤ 1) ∧
      ((dx, dy) ∈ L3.get_neighborhood_offsets "12" ↔
        0 < manhattan (dx, dy) ∧ (manhattan (dx, dy) : ℤ) ≤ 2) ∧
      ((dx, dy) ∈ L3.get_neighborhood_offsets "8" ↔
        0 < chebyshev (dx, dy) ∧ (chebyshev (dx, dy) : ℤ) ≤ 1) ∧
      ((dx, dy) ∈ L3.get_neighborhood_offsets "24" ↔
        0 < chebyshev (dx, dy) ∧ (chebyshev (dx, dy) : ℤ) ≤ 2) ∧
      ((dx, dy) ∈ L3.get_neighborhood_offsets "48" ↔
        0 < chebyshev (dx, dy) ∧ (chebyshev (dx, dy) : ℤ) ≤ 3) ∧
      ((dx, dy) ∈ L3.get_neighborhood_offsets "80" ↔
        0 < chebyshev (dx, dy) ∧ (chebyshev (dx, dy) : ℤ) ≤ 4)) ∧
    (∀ name : String, ((0 : ℤ), (0 : ℤ)) ∉ L3.get_neighborhood_offsets name) := by
  refine ⟨fun r _ dx dy => mem_vn_offsets, fun r _ dx dy => mem_moore_offsets,
    fun r _ => rfl, ?_, ?_⟩
  · intro dx dy
    refine ⟨mem_lit4, ?_, ?_, ?_, ?_, ?_⟩
    · rw [show L3.get_neighborhood_offsets "12" = L3.vnSquareOffsets 2 from rfl]
      exact mem_vnSquareOffsets
    · rw [show L3.get_neighborhood_offsets "8" = moore8 from rfl]
      exact mem_moore8
    · rw [show L3.get_neighborhood_offsets "24" = L3.mooreSquareOffsets 2 from rfl]
      exact mem_mooreSquareOffsets
    · rw [show L3.get_neighborhood_offsets "48" = L3.mooreSquareOffsets 3 from rfl]
      exact mem_mooreSquareOffsets
    · rw [show L3.get_neighborhood_offsets "80" = L3.mooreSquareOffsets 4 from rfl]
      exact mem_mooreSquareOffsets
  · intro name
    by_cases h4 : name = "4"
    · subst h4
      decide
    by_cases h12 : name = "12"
    · subst h12
      decide
    by_cases h24 : name = "24"
    · subst h24
      decide
    by_cases h48 : name = "48"
    · subst h48
      decide
    by_cases h80 : name = "80"
    · subst h80
      decide
    simp only [L3.get_neighborhood_offsets, h4, h12, h24, h48, h80, if_false,
      if_neg, ite_false]
    decide

/-- Claim C6 counterexample: for the recognized EXTENDED kind and the
positive radius 1, the lec04 dispatcher returns the Moore offsets of radius
2, which contain the offset `(2, 2)` whose Chebyshev (and Manhattan)
distance exceeds 1 — so the returned set is not the set of offsets with
distance in `(0, 1]`. -/
theorem extended_radius_counterexample :
    Lec04.get_neighborhood_offsets Lec04.NeighborhoodKind.extended 1 =
      Except.ok (Lec04.get_moore_offsets 2) ∧
    ((2 : ℤ), (2 : ℤ)) ∈ Lec04.get_moore_offsets 2 ∧
    ¬((chebyshev (2, 2) : ℤ) ≤ 1) ∧ ¬((manhattan (2, 2) : ℤ) ≤ 1) :=
  ⟨rfl, by decide, by decide, by decide⟩

/-- Witness for the C6 theorem at radius 1 and offset `(1, 0)`. -/
theorem offsets_distance_witness :
    (0 : ℤ) < 1 ∧
    (((1 : ℤ), (0 : ℤ)) ∈ Lec04.get_von_neumann_offsets 1 ↔
      0 < manhattan (1, 0) ∧ (manhattan (1, 0) : ℤ) ≤ 1) :=
  ⟨by decide, offsets_distance_thm.1 1 (by decide) 1 0⟩

/-- Claim C4 counterexample: the lecture_03 offset function maps the
unrecognized kind "hexagonal" to the default Moore-8 offset set instead of
failing, and the lec04 generators accept radius 0 and radius -3, returning
an empty offset list instead of failing with an invalid-radius error. -/
theorem offsets_no_validation_counterexample :
    L3.get_neighborhood_offsets "hexagonal" = moore8 ∧
    Lec04.get_neighborhood_offsets Lec04.NeighborhoodKind.von_neumann 0 =
      Except.ok [] ∧
    Lec04.get_neighborhood_offsets Lec04.NeighborhoodKind.moore (-3) =
      Except.ok [] :=
  ⟨rfl, rfl, rfl⟩

/-- Claim C4 (amended): only the lec04 dispatcher rejects an unrecognized
neighborhood kind (raising `ValueError`, the InvalidTopology analogue); the
lecture_03 function instead silently falls back to the Moore-8 offsets for
every unrecognized name; and neither implementation validates the radius —
a radius at most 0 yields an empty offset list, not an InvalidRadius
error. -/
theorem offsets_error_handling_thm :
    (∀ (tag : String) (r : ℤ),
      Lec04.get_neighborhood_offsets (Lec04.NeighborhoodKind.invalid tag) r =
        Except.error ("Unknown neighborhood type: " ++ tag)) ∧
    (∀ name : String,
      name ≠ "4" → name ≠ "12" → name ≠ "24" → name ≠ "48" → name ≠ "80" →
      L3.get_neighborhood_offsets name = moore8) ∧
    (∀ r : ℤ, r ≤ 0 →
      Lec04.get_von_neumann_offsets r = [] ∧ Lec04.get_moore_offsets r = []) := by
  refine ⟨fun tag r => rfl, ?_, ?_⟩
  · intro name h4 h12 h24 h48 h80
    simp [L3.get_neighborhood_offsets, moore8, h4, h12, h24, h48, h80]
  · intro r hr
    rcases lt_or_eq_of_le hr with h | h
    · constructor
      · simp [Lec04.get_von_neumann_offsets, pyRange_eq_nil (show r + 1 ≤ -r by omega)]
      · simp [Lec04.get_moore_offsets, pyRange_eq_nil (show r + 1 ≤ -r by omega)]
    · subst h
      exact ⟨by decide, by decide⟩

/-- Witness for the C4 theorem: the unrecognized name "diag" falls back to
Moore-8 in lecture_03, and radius -2 yields empty offset lists in lec04. -/
theorem offsets_error_handling_witness :
    L3.get_neighborhood_offsets "diag" = moore8 ∧
    (Lec04.get_von_neumann_offsets (-2) = [] ∧ Lec04.get_moore_offsets (-2) = []) :=
  ⟨offsets_error_handling_thm.2.1 "diag" (by decide) (by decide) (by decide)
      (by decide) (by decide),
    offsets_error_handling_thm.2.2 (-2) (by decide)⟩

/-- Claim C2 counterexample: in the lec04 implementation, a
non-always-satisfied agent with the default `ThresholdUtility(0.3)` and a
zero neighbor total gets utility 0 and is marked unsatisfied — not the
vacuous satisfaction the claim asserts for every cited implementation. -/
theorem lec04_zero_neighbors_unhappy :
    Lec04.agentHappy (3 / 10) 0 0 = false := by
  simp only [Lec04.agentHappy, Lec04.ThresholdUtility.calculate, if_pos rfl]
  norm_num

/-- Claim C2 (amended): in the lecture_03 implementation the claimed rule
holds exactly — an always-happy agent is satisfied, a zero neighbor total
gives vacuous satisfaction, and otherwise `satisfied` iff
`similar / total >= threshold`.  In the lec04 implementation with
`ThresholdUtility`, a zero neighbor total instead yields `satisfied = false`
(utility 0 is below the fixed happiness threshold 0.5); for a positive
total the claimed ratio rule holds. -/
theorem satisfaction_rule_thm :
    (∀ (similar total : ℕ) (threshold : ℚ),
      L3.stepHappy true similar total threshold = true) ∧
    (∀ (similar : ℕ) (threshold : ℚ),
      L3.stepHappy false similar 0 threshold = true) ∧
    (∀ (similar total : ℕ) (threshold : ℚ), 0 < total →
      (L3.stepHappy false similar total threshold = true ↔
        (similar : ℚ) / (total : ℚ) ≥ threshold)) ∧
    (∀ (similar : ℕ) (threshold : ℚ),
      Lec04.agentHappy threshold similar 0 = false) ∧
    (∀ (similar total : ℕ) (threshold : ℚ), 0 < total →
      (Lec04.agentHappy threshold similar total = true ↔
        (similar : ℚ) / (total : ℚ) ≥ threshold)) := by
  refine ⟨?_, ?_, ?_, ?_, ?_⟩
  · intro similar total threshold
    simp [L3.stepHappy]
  · intro similar threshold
    simp [L3.stepHappy]
  · intro similar total threshold ht
    simp [L3.stepHappy, ht]
  · intro similar threshold
    simp only [Lec04.agentHappy, Lec04.ThresholdUtility.calculate, if_pos rfl]
    norm_num
  · intro similar total threshold ht
    have ht' : total ≠ 0 := Nat.pos_iff_ne_zero.mp ht
    by_cases hc : (similar : ℚ) / (total : ℚ) ≥ threshold
    · simp only [Lec04.agentHappy, Lec04.ThresholdUtility.calculate, if_neg ht',
        if_pos hc]
      norm_num
      exact hc
    · simp only [Lec04.agentHappy, Lec04.ThresholdUtility.calculate, if_neg ht',
        if_neg hc]
      norm_num
      exact lt_of_not_ge hc

/-- Witness for the C2 theorem at 1 similar of 2 neighbors against
threshold one half (satisfied in both implementations). -/
theorem satisfaction_rule_witness :
    0 < 2 ∧
    (L3.stepHappy false 1 2 (1 / 2) = true ↔ (1 : ℚ) / (2 : ℚ) ≥ 1 / 2) ∧
    (Lec04.agentHappy (1 / 2) 1 2 = true ↔ (1 : ℚ) / (2 : ℚ) ≥ 1 / 2) := by
  refine ⟨by decide, ?_, ?_⟩
  · have h := satisfaction_rule_thm.2.2.1 1 2 (1 / 2) (by decide)
    norm_num at h ⊢
    exact h
  · have h := satisfaction_rule_thm.2.2.2.2 1 2 (1 / 2) (by decide)
    norm_num at h ⊢
    exact h

/-- Claim C5 counterexample: the lec04 neighbor lookup wraps out-of-range
coordinates (periodic boundary): from center (0, 0) on a 3 by 3 grid with
Moore-1 offsets it probes (2, 2), which is not the center plus any offset
of the topology. -/
theorem lec04_wraps_counterexample :
    ((2 : ℤ), (2 : ℤ)) ∈ Lec04.neighborCoords (Lec04.get_moore_offsets 1) 3 3 0 0 ∧
    ((2 : ℤ), (2 : ℤ)) ∉
      (Lec04.get_moore_offsets 1).map (fun d => ((0 : ℤ) + d.1, (0 : ℤ) + d.2)) := by
  constructor
  · decide
  · decide

/-- Claim C5 (amended): the lecture_03 `GridNghFinder.find` satisfies the
claim — a coordinate is returned iff it is the center plus one of the
topology offsets and lies inside the grid bounds (sticky border, offsets
out of range are dropped, nothing is wrapped).  The lec04 `get_neighbors`
lookup instead wraps coordinates periodically: every probed coordinate lies
inside the grid, but it need not be the center plus an offset. -/
theorem neighbor_lookup_thm :
    (∀ (f : L3.GridNghFinder) (x y : ℤ) (p : ℤ × ℤ),
      p ∈ f.find x y ↔
        ((∃ d ∈ f.mo.zip f.no, p = (d.1 + x, d.2 + y)) ∧
          (f.xmin ≤ p.1 ∧ p.1 < f.xmax) ∧ (f.ymin ≤ p.2 ∧ p.2 < f.ymax))) ∧
    (∀ (offsets : List (ℤ × ℤ)) (width height x y : ℤ),
      0 < width → 0 < height →
      ∀ p ∈ Lec04.neighborCoords offsets width height x y,
        0 ≤ p.1 ∧ p.1 < width ∧ 0 ≤ p.2 ∧ p.2 < height) := by
  constructor
  · intro f x y p
    unfold L3.GridNghFinder.find
    simp only [List.zip_map, List.mem_filter, List.mem_map, decide_eq_true_eq,
      Prod.map]
    constructor
    · rintro ⟨⟨⟨d, hd, rfl⟩, h1⟩, h2⟩
      exact ⟨⟨d, hd, rfl⟩, h1, h2⟩
    · rintro ⟨⟨d, hd, rfl⟩, h1, h2⟩
      exact ⟨⟨⟨d, hd, rfl⟩, h1⟩, h2⟩
  · intro offsets width height x y hw hh p hp
    rcases List.mem_map.mp hp with ⟨d, hd, rfl⟩
    exact ⟨Int.emod_nonneg _ (by omega), Int.emod_lt_of_pos _ hw,
      Int.emod_nonneg _ (by omega), Int.emod_lt_of_pos _ hh⟩

/-- Witness for the C5 theorem: a concrete finder on a 3 by 3 grid, and the
wrapped lec04 probe (2, 2) staying inside the grid. -/
theorem neighbor_lookup_witness :
    (((1 : ℤ), (1 : ℤ)) ∈
        (L3.GridNghFinder.mk [0] [1] 0 0 3 3).find 1 0 ↔
      ((∃ d ∈ ([0] : List ℤ).zip ([1] : List ℤ), ((1 : ℤ), (1 : ℤ)) = (d.1 + 1, d.2 + 0)) ∧
        ((0 : ℤ) ≤ 1 ∧ (1 : ℤ) < 3) ∧ ((0 : ℤ) ≤ 1 ∧ (1 : ℤ) < 3))) ∧
    (0 : ℤ) < 3 ∧
    (0 ≤ ((2 : ℤ), (2 : ℤ)).1 ∧ ((2 : ℤ), (2 : ℤ)).1 < 3 ∧
      0 ≤ ((2 : ℤ), (2 : ℤ)).2 ∧ ((2 : ℤ), (2 : ℤ)).2 < 3) :=
  ⟨neighbor_lookup_thm.1 (L3.GridNghFinder.mk [0] [1] 0 0 3 3) 1 0 (1, 1),
    by decide,
    neighbor_lookup_thm.2 (Lec04.get_moore_offsets 1) 3 3 0 0 (by decide)
      (by decide) (2, 2) (by decide)⟩

section CacheLemmas

lemma cacheLookup_nil (u : ℤ × ℤ × ℤ) : L3.cacheLookup [] u = none := rfl

lemma cacheLookup_cons (e : (ℤ × ℤ × ℤ) × L3.SchellingAgent) (t : L3.AgentCache)
    (u : ℤ × ℤ × ℤ) :
    L3.cacheLookup (e :: t) u = if e.1 = u then some e.2 else L3.cacheLookup t u := by
  by_cases h : e.1 = u <;> simp [L3.cacheLookup, List.find?_cons, h]

lemma cacheSet_cons (e : (ℤ × ℤ × ℤ) × L3.SchellingAgent) (t : L3.AgentCache)
    (u : ℤ × ℤ × ℤ) (a : L3.SchellingAgent) :
    L3.cacheSet (e :: t) u a = (if e.1 = u then (u, a) else e) :: L3.cacheSet t u a := rfl

lemma cacheLookup_set_self (cache : L3.AgentCache) (u : ℤ × ℤ × ℤ)
    (a : L3.SchellingAgent) (h : (L3.cacheLookup cache u).isSome = true) :
    L3.cacheLookup (L3.cacheSet cache u a) u = some a := by
  induction cache with
  | nil => simp [cacheLookup_nil] at h
  | cons e t ih =>
    by_cases he : e.1 = u
    · simp [cacheSet_cons, cacheLookup_cons, he]
    · rw [cacheLookup_cons, if_neg he] at h
      rw [cacheSet_cons, if_neg he, cacheLookup_cons, if_neg he]
      exact ih h

lemma cacheSet_of_none (cache : L3.AgentCache) (u : ℤ × ℤ × ℤ)
    (a : L3.SchellingAgent) (h : L3.cacheLookup cache u = none) :
    L3.cacheSet cache u a = cache := by
  induction cache with
  | nil => rfl
  | cons e t ih =>
    rw [cacheLookup_cons] at h
    by_cases he : e.1 = u
    · rw [if_pos he] at h
      cases h
    · rw [if_neg he] at h
      rw [cacheSet_cons, if_neg he, ih h]

lemma cacheSet_idem (cache : L3.AgentCache) (u : ℤ × ℤ × ℤ) (a : L3.SchellingAgent) :
    L3.cacheSet (L3.cacheSet cache u a) u a = L3.cacheSet cache u a := by
  induction cache with
  | nil => rfl
  | cons e t ih =>
    by_cases he : e.1 = u <;> simp [cacheSet_cons, he, ih]

lemma cacheSet_length (cache : L3.AgentCache) (u : ℤ × ℤ × ℤ)
    (a : L3.SchellingAgent) : (L3.cacheSet cache u a).length = cache.length := by
  simp [L3.cacheSet]

lemma restore_agent_miss (d : L3.Record) (cache : L3.AgentCache)
    (h : L3.cacheLookup cache d.uid = none) :
    L3.restore_agent d cache =
      (⟨d.uid.1, d.uid.2.2, d.agent_type, d.threshold, d.happy, d.always_happy⟩,
        (d.uid,
          (⟨d.uid.1, d.uid.2.2, d.agent_type, d.threshold, d.happy,
            d.always_happy⟩ : L3.SchellingAgent)) :: cache) := by
  unfold L3.restore_agent
  rw [h]

lemma restore_agent_hit (d : L3.Record) (cache : L3.AgentCache)
    (b : L3.SchellingAgent) (h : L3.cacheLookup cache d.uid = some b) :
    L3.restore_agent d cache =
      ({ b with happy := d.happy },
        L3.cacheSet cache d.uid { b with happy := d.happy }) := by
  unfold L3.restore_agent
  rw [h]

end CacheLemmas

/-- Claim C7: restoring an agent from its own serialized record, starting
from any cache state whose entry under that uid (if present) is
field-consistent with the agent (an invariant of the program, since all
records with one uid come from the one agent with that uid and the
non-`happy` fields are never reassigned), yields an agent equal to the
original in all observable fields; the restored instance is the cached one,
and restoring from the same record again returns that same cached instance
with the cache unchanged (no duplicate is allocated). -/
theorem reconstruct_roundtrip_thm (a : L3.SchellingAgent) (cache : L3.AgentCache)
    (hc : L3.cacheConsistent a cache) :
    (L3.restore_agent a.save cache).1 = a ∧
    L3.cacheLookup (L3.restore_agent a.save cache).2 a.uid = some a ∧
    L3.restore_agent a.save (L3.restore_agent a.save cache).2 =
      (a, (L3.restore_agent a.save cache).2) := by
  cases hmiss : L3.cacheLookup cache a.uid with
  | none =>
    have h0 : L3.restore_agent a.save cache = (a, (a.uid, a) :: cache) := by
      rw [restore_agent_miss a.save cache hmiss]
      rfl
    have h2 : L3.cacheLookup ((a.uid, a) :: cache) a.uid = some a := by
      rw [cacheLookup_cons, if_pos rfl]
    refine ⟨by rw [h0], by rw [h0]; exact h2, ?_⟩
    rw [h0]
    rw [restore_agent_hit a.save ((a.uid, a) :: cache) a h2]
    rw [show ({ a with happy := (L3.SchellingAgent.save a).happy } :
      L3.SchellingAgent) = a from rfl]
    rw [show (L3.SchellingAgent.save a).uid = a.uid from rfl]
    rw [cacheSet_cons, if_pos rfl, cacheSet_of_none cache a.uid a hmiss]
  | some b =>
    obtain ⟨hb1, hb2, hb3, hb4, hb5⟩ := hc b hmiss
    have hba : ({ b with happy := (L3.SchellingAgent.save a).happy } :
        L3.SchellingAgent) = a := by
      cases a
      cases b
      simp_all [L3.SchellingAgent.save]
    have h0 : L3.restore_agent a.save cache = (a, L3.cacheSet cache a.uid a) := by
      rw [restore_agent_hit a.save cache b hmiss, hba]
      rfl
    have h2 : L3.cacheLookup (L3.cacheSet cache a.uid a) a.uid = some a :=
      cacheLookup_set_self cache a.uid a (by rw [hmiss]; rfl)
    refine ⟨by rw [h0], by rw [h0]; exact h2, ?_⟩
    rw [h0]
    rw [restore_agent_hit a.save (L3.cacheSet cache a.uid a) a h2]
    rw [show ({ a with happy := (L3.SchellingAgent.save a).happy } :
      L3.SchellingAgent) = a from rfl]
    rw [show (L3.SchellingAgent.save a).uid = a.uid from rfl]
    rw [cacheSet_idem]

/-- Witness for the C7 theorem: a concrete agent restored against the empty
cache (vacuously consistent). -/
theorem reconstruct_roundtrip_witness :
    (L3.restore_agent (L3.SchellingAgent.mk 3 1 0 (7/10) true false).save []).1 =
      L3.SchellingAgent.mk 3 1 0 (7/10) true false ∧
    L3.cacheLookup
        (L3.restore_agent (L3.SchellingAgent.mk 3 1 0 (7/10) true false).save []).2
        (L3.SchellingAgent.mk 3 1 0 (7/10) true false).uid =
      some (L3.SchellingAgent.mk 3 1 0 (7/10) true false) ∧
    L3.restore_agent (L3.SchellingAgent.mk 3 1 0 (7/10) true false).save
        (L3.restore_agent (L3.SchellingAgent.mk 3 1 0 (7/10) true false).save []).2 =
      (L3.SchellingAgent.mk 3 1 0 (7/10) true false,
        (L3.restore_agent (L3.SchellingAgent.mk 3 1 0 (7/10) true false).save []).2) :=
  reconstruct_roundtrip_thm (L3.SchellingAgent.mk 3 1 0 (7/10) true false) []
    (fun b hb => by cases hb)

/-- Claim C10: when the incoming record uid is already cached,
`restore_agent` returns the cached instance with only its `happy` flag
overwritten from the record: its `agent_type`, `threshold` and
`always_happy` keep the cached values no matter what the record carries;
the cache gains no new entry, and the entry under the uid is exactly the
returned instance. -/
theorem restore_cached_frame_thm (d : L3.Record) (cache : L3.AgentCache)
    (b : L3.SchellingAgent) (h : L3.cacheLookup cache d.uid = some b) :
    (L3.restore_agent d cache).1 = { b with happy := d.happy } ∧
    (L3.restore_agent d cache).1.agent_type = b.agent_type ∧
    (L3.restore_agent d cache).1.threshold = b.threshold ∧
    (L3.restore_agent d cache).1.always_happy = b.always_happy ∧
    (L3.restore_agent d cache).1.happy = d.happy ∧
    (L3.restore_agent d cache).2 =
      L3.cacheSet cache d.uid { b with happy := d.happy } ∧
    (L3.restore_agent d cache).2.length = cache.length ∧
    L3.cacheLookup (L3.restore_agent d cache).2 d.uid =
      some { b with happy := d.happy } := by
  have h1 : L3.restore_agent d cache =
      ({ b with happy := d.happy }, L3.cacheSet cache d.uid { b with happy := d.happy }) := by
    unfold L3.restore_agent
    rw [h]
  refine ⟨by rw [h1], by rw [h1], by rw [h1], by rw [h1], by rw [h1], by rw [h1], ?_, ?_⟩
  · rw [h1]
    exact cacheSet_length cache d.uid _
  · rw [h1]
    exact cacheLookup_set_self cache d.uid _ (by rw [h]; rfl)

/-- Witness for the C10 theorem: the cached instance has group 0, threshold
7/10 and always-happy true, while the incoming record carries group 1,
threshold 1/2 and always-happy false; the returned agent keeps the cached
values and takes only `happy` from the record. -/
theorem restore_cached_frame_witness :
    (L3.restore_agent (L3.Record.mk (1, 0, 0) 1 (1/2) true false)
        [((1, 0, 0), L3.SchellingAgent.mk 1 0 0 (7/10) false true)]).1 =
      { L3.SchellingAgent.mk 1 0 0 (7/10) false true with happy := true } ∧
    (L3.restore_agent (L3.Record.mk (1, 0, 0) 1 (1/2) true false)
        [((1, 0, 0), L3.SchellingAgent.mk 1 0 0 (7/10) false true)]).1.agent_type =
      (L3.SchellingAgent.mk 1 0 0 (7/10) false true).agent_type ∧
    (L3.restore_agent (L3.Record.mk (1, 0, 0) 1 (1/2) true false)
        [((1, 0, 0), L3.SchellingAgent.mk 1 0 0 (7/10) false true)]).1.threshold =
      (L3.SchellingAgent.mk 1 0 0 (7/10) false true).threshold ∧
    (L3.restore_agent (L3.Record.mk (1, 0, 0) 1 (1/2) true false)
        [((1, 0, 0), L3.SchellingAgent.mk 1 0 0 (7/10) false true)]).1.always_happy =
      (L3.SchellingAgent.mk 1 0 0 (7/10) false true).always_happy ∧
    (L3.restore_agent (L3.Record.mk (1, 0, 0) 1 (1/2) true false)
        [((1, 0, 0), L3.SchellingAgent.mk 1 0 0 (7/10) false true)]).1.happy = true ∧
    (L3.restore_agent (L3.Record.mk (1, 0, 0) 1 (1/2) true false)
        [((1, 0, 0), L3.SchellingAgent.mk 1 0 0 (7/10) false true)]).2 =
      L3.cacheSet [((1, 0, 0), L3.SchellingAgent.mk 1 0 0 (7/10) false true)] (1, 0, 0)
        { L3.SchellingAgent.mk 1 0 0 (7/10) false true with happy := true } ∧
    (L3.restore_agent (L3.Record.mk (1, 0, 0) 1 (1/2) true false)
        [((1, 0, 0), L3.SchellingAgent.mk 1 0 0 (7/10) false true)]).2.length =
      ([((1, 0, 0), L3.SchellingAgent.mk 1 0 0 (7/10) false true)] : L3.AgentCache).length ∧
    L3.cacheLookup
        (L3.restore_agent (L3.Record.mk (1, 0, 0) 1 (1/2) true false)
          [((1, 0, 0), L3.SchellingAgent.mk 1 0 0 (7/10) false true)]).2 (1, 0, 0) =
      some { L3.SchellingAgent.mk 1 0 0 (7/10) false true with happy := true } :=
  restore_cached_frame_thm (L3.Record.mk (1, 0, 0) 1 (1/2) true false)
    [((1, 0, 0), L3.SchellingAgent.mk 1 0 0 (7/10) false true)]
    (L3.SchellingAgent.mk 1 0 0 (7/10) false true) rfl

section MoveLemmas

lemma moveLoop_all_occupied (occupied : ℤ × ℤ → Bool) (draws : ℕ → ℤ × ℤ)
    (p : ℤ × ℤ) :
    ∀ (fuel i : ℕ), (∀ k, i ≤ k → k < i + fuel → occupied (draws k) = true) →
      L3.moveLoop occupied draws p i fuel = p := by
  intro fuel
  induction fuel with
  | zero => intro i _; rfl
  | succ n ih =>
    intro i h
    unfold L3.moveLoop
    rw [if_pos (h i le_rfl (by omega))]
    exact ih (i + 1) (fun k hk1 hk2 => h k (by omega) (by omega))

lemma moveLoop_first_vacant (occupied : ℤ × ℤ → Bool) (draws : ℕ → ℤ × ℤ)
    (p : ℤ × ℤ) :
    ∀ (fuel i j : ℕ), i ≤ j → j < i + fuel →
      (∀ k, i ≤ k → k < j → occupied (draws k) = true) →
      occupied (draws j) = false →
      L3.moveLoop occupied draws p i fuel = draws j := by
  intro fuel
  induction fuel with
  | zero =>
    intro i j h1 h2 _ _
    exact absurd h2 (by omega)
  | succ n ih =>
    intro i j h1 h2 hocc hj
    by_cases hij : j = i
    · subst hij
      unfold L3.moveLoop
      rw [if_neg (by rw [hj]; exact Bool.false_ne_true)]
    · have hi : occupied (draws i) = true := hocc i le_rfl (by omega)
      unfold L3.moveLoop
      rw [if_pos hi]
      exact ih (i + 1) j (by omega) (by omega)
        (fun k hk1 hk2 => hocc k (by omega) hk2) hj

lemma moveLoop_congr (occupied : ℤ × ℤ → Bool) (draws draws' : ℕ → ℤ × ℤ)
    (p : ℤ × ℤ) :
    ∀ (fuel i : ℕ), (∀ k, i ≤ k → k < i + fuel → draws' k = draws k) →
      L3.moveLoop occupied draws' p i fuel = L3.moveLoop occupied draws p i fuel := by
  intro fuel
  induction fuel with
  | zero => intro i _; rfl
  | succ n ih =>
    intro i h
    have hd : draws' i = draws i := h i le_rfl (by omega)
    unfold L3.moveLoop
    rw [hd]
    by_cases hi : occupied (draws i) = true
    · rw [if_pos hi, if_pos hi]
      exact ih (i + 1) (fun k hk1 hk2 => h k (by omega) (by omega))
    · rw [if_neg hi, if_neg hi]

lemma moveLoop_vacant_or_stay (occupied : ℤ × ℤ → Bool) (draws : ℕ → ℤ × ℤ)
    (p : ℤ × ℤ) :
    ∀ (fuel i : ℕ), L3.moveLoop occupied draws p i fuel = p ∨
      occupied (L3.moveLoop occupied draws p i fuel) = false := by
  intro fuel
  induction fuel with
  | zero => intro i; exact Or.inl rfl
  | succ n ih =>
    intro i
    unfold L3.moveLoop
    by_cases hi : occupied (draws i) = true
    · rw [if_pos hi]
      exact ih (i + 1)
    · rw [if_neg hi]
      exact Or.inr (by simpa using hi)

end MoveLemmas

/-- Claim C8: `SchellingAgent.move` inspects at most the first 100 random
draws; it relocates only to a vacant coordinate (the first vacant draw, when
one exists among the first 100); and when every one of the 100 draws is
occupied the agent keeps its current position — the loop just falls through,
no error path exists (the embedding is a total function). -/
theorem move_retry_thm (occupied : ℤ × ℤ → Bool) (draws : ℕ → ℤ × ℤ)
    (p : ℤ × ℤ) :
    ((∀ i, i < 100 → occupied (draws i) = true) → L3.move occupied draws p = p) ∧
    (∀ j, j < 100 → (∀ i, i < j → occupied (draws i) = true) →
      occupied (draws j) = false → L3.move occupied draws p = draws j) ∧
    (∀ draws' : ℕ → ℤ × ℤ, (∀ i, i < 100 → draws' i = draws i) →
      L3.move occupied draws' p = L3.move occupied draws p) ∧
    (L3.move occupied draws p = p ∨ occupied (L3.move occupied draws p) = false) := by
  refine ⟨?_, ?_, ?_, ?_⟩
  · intro h
    exact moveLoop_all_occupied occupied draws p 100 0 (fun k _ hk => h k (by omega))
  · intro j hj hocc hvac
    exact moveLoop_first_vacant occupied draws p 100 0 j (by omega) (by omega)
      (fun k _ hk => hocc k hk) hvac
  · intro draws' h
    exact moveLoop_congr occupied draws draws' p 100 0 (fun k _ hk => h k (by omega))
  · exact moveLoop_vacant_or_stay occupied draws p 100 0

/-- Witness for the C8 theorem: with every cell occupied the agent stays in
place; with a vacant first draw it moves there. -/
theorem move_retry_witness :
    L3.move (fun _ => true) (fun _ => ((5 : ℤ), (5 : ℤ))) (0, 0) = (0, 0) ∧
    L3.move (fun _ => false) (fun _ => ((5 : ℤ), (5 : ℤ))) (0, 0) = (5, 5) :=
  ⟨(move_retry_thm (fun _ => true) (fun _ => ((5 : ℤ), (5 : ℤ))) (0, 0)).1
      (fun i _ => rfl),
    (move_retry_thm (fun _ => false) (fun _ => ((5 : ℤ), (5 : ℤ))) (0, 0)).2.1 0
      (by omega) (fun i hi => absurd hi (by omega)) rfl⟩

/-- Claim C1: while `Running`, the scheduler leaves the `Running` state after
a tick exactly when the globally reduced unsatisfied count for that tick is
0 or the configured maximum tick count has been reached; consequently (for a
positive configured maximum) a run never executes a tick numbered beyond the
maximum — whenever the machine is still `Running`, its tick counter is at
most the maximum, for every trace of reduced unsatisfied counts (hence
regardless of grid density). -/
theorem scheduler_stop_thm (cfg : L3.SchedConfig) (unhappyAt : ℕ → ℕ)
    (h1 : 1 ≤ cfg.maxTick) :
    (∀ s : L3.SchedState, s.status = L3.SchedStatus.Running →
      ((L3.schedStep cfg unhappyAt s).status ≠ L3.SchedStatus.Running ↔
        (unhappyAt s.tick = 0 ∨ cfg.maxTick ≤ s.tick))) ∧
    (∀ n : ℕ, (L3.schedRun cfg unhappyAt n).status = L3.SchedStatus.Running →
      (L3.schedRun cfg unhappyAt n).tick ≤ cfg.maxTick) := by
  constructor
  · intro s hs
    unfold L3.schedStep
    rw [hs]
    by_cases hu : unhappyAt s.tick = 0
    · simp [hu]
    · by_cases hm : cfg.maxTick ≤ s.tick
      · simp [hu, hm]
      · simp [hu, hm, hs]
  · intro n
    induction n with
    | zero =>
      intro _
      exact h1
    | succ m ih =>
      rw [L3.schedRun, Function.iterate_succ_apply', ← L3.schedRun]
      intro hrun
      cases hs : (L3.schedRun cfg unhappyAt m).status with
      | Running =>
        unfold L3.schedStep at hrun ⊢
        rw [hs] at hrun ⊢
        by_cases hu : unhappyAt (L3.schedRun cfg unhappyAt m).tick = 0
        · simp [hu] at hrun
        · by_cases hm : cfg.maxTick ≤ (L3.schedRun cfg unhappyAt m).tick
          · simp [hu, hm] at hrun
          · simp [hu, hm]
            omega
      | Terminating =>
        unfold L3.schedStep at hrun
        rw [hs] at hrun
        simp at hrun
      | Terminated =>
        unfold L3.schedStep at hrun
        rw [hs] at hrun
        rw [hs] at hrun
        simp_all

/-- Witness for the C1 theorem: maximum tick 3, constant unsatisfied count 1
(a run that only stops via the tick bound). -/
theorem scheduler_stop_witness :
    1 ≤ 3 ∧
    ((L3.schedStep (L3.SchedConfig.mk 3) (fun _ => 1)
        (L3.SchedState.mk 1 L3.SchedStatus.Running)).status ≠
        L3.SchedStatus.Running ↔
      ((1 : ℕ) = 0 ∨ (3 : ℕ) ≤ 1)) ∧
    ((L3.schedRun (L3.SchedConfig.mk 3) (fun _ => 1) 5).status =
        L3.SchedStatus.Running →
      (L3.schedRun (L3.SchedConfig.mk 3) (fun _ => 1) 5).tick ≤ 3) :=
  ⟨by omega,
    (scheduler_stop_thm (L3.SchedConfig.mk 3) (fun _ => 1) (by decide)).1
      (L3.SchedState.mk 1 L3.SchedStatus.Running) rfl,
    (scheduler_stop_thm (L3.SchedConfig.mk 3) (fun _ => 1) (by decide)).2 5⟩

section MoranLemmas

lemma sum_range3 (f : ℕ → ℚ) : (∑ i ∈ Finset.range 3, f i) = f 0 + f 1 + f 2 := by
  rw [show Finset.range 3 = {0, 1, 2} from by decide]
  rw [Finset.sum_insert (by decide), Finset.sum_insert (by decide),
    Finset.sum_singleton]
  ring

lemma conv_eq_offsets (f : ℤ → ℤ → ℚ) (r c : ℤ) :
    AnalysisUtils.convolve2dSame3 f r c =
      (neighbors_offsets.map (fun d => f (r + d.1) (c + d.2))).sum := by
  unfold AnalysisUtils.convolve2dSame3
  rw [sum_range3]
  rw [sum_range3, sum_range3, sum_range3]
  simp only [show AnalysisUtils.kAt 0 0 = 1 from rfl,
    show AnalysisUtils.kAt 0 1 = 1 from rfl, show AnalysisUtils.kAt 0 2 = 1 from rfl,
    show AnalysisUtils.kAt 1 0 = 1 from rfl, show AnalysisUtils.kAt 1 1 = 0 from rfl,
    show AnalysisUtils.kAt 1 2 = 1 from rfl, show AnalysisUtils.kAt 2 0 = 1 from rfl,
    show AnalysisUtils.kAt 2 1 = 1 from rfl, show AnalysisUtils.kAt 2 2 = 1 from rfl,
    one_mul, zero_mul, neighbors_offsets, List.map_cons, List.map_nil,
    List.sum_cons, List.sum_nil, Nat.cast_zero, Nat.cast_one, Nat.cast_ofNat,
    sub_zero, add_sub_cancel_right]
  have e2 : ∀ t : ℤ, t + 1 - 2 = t + -1 := fun t => by ring
  rw [e2, e2]
  ring

lemma NA_eq_N (g : Grid) : AnalysisUtils.N g = FinalStats.N g := by
  unfold AnalysisUtils.N FinalStats.N
  rw [Finset.card_filter]

lemma meanA_eq (g : Grid) : AnalysisUtils.mean g = FinalStats.mean g := by
  unfold AnalysisUtils.mean FinalStats.mean AnalysisUtils.values0
  rw [NA_eq_N, ← Finset.sum_filter]

lemma z_masked (g : Grid) {r c : ℤ} (h : g.mask r c = true) :
    AnalysisUtils.z g r c = g.cellv r c - AnalysisUtils.mean g := by
  unfold AnalysisUtils.z
  rw [if_pos h]

lemma denomA_eq (g : Grid) : AnalysisUtils.denom g = FinalStats.denom g := by
  unfold AnalysisUtils.denom FinalStats.denom
  rw [Finset.sum_filter]
  apply Finset.sum_congr rfl
  intro p _
  by_cases h : g.mask p.1 p.2 = true
  · rw [if_pos h, if_pos h, z_masked g h, meanA_eq]
  · rw [if_neg h, if_neg h]

lemma WA_eq (g : Grid) : AnalysisUtils.W g = FinalStats.W g := by
  unfold AnalysisUtils.W FinalStats.W
  apply Finset.sum_congr rfl
  intro p _
  by_cases h : g.mask p.1 p.2 = true
  · rw [if_pos h, if_pos h, conv_eq_offsets]
  · rw [if_neg h, if_neg h]

lemma numA_eq (g : Grid) : AnalysisUtils.num g = FinalStats.num g := by
  unfold AnalysisUtils.num FinalStats.num
  apply Finset.sum_congr rfl
  intro p _
  by_cases h : g.mask p.1 p.2 = true
  · rw [if_pos h, if_pos h, conv_eq_offsets, ← List.sum_map_mul_left]
    refine congrArg List.sum (List.map_congr_left ?_)
    intro d _
    rw [z_masked g h, meanA_eq]
    unfold AnalysisUtils.z
    rw [meanA_eq, mul_ite, mul_zero]
  · rw [if_neg h, if_neg h]

end MoranLemmas

/-- Claim C3: on every grid where the metric is defined (at least two valid
cells, nonzero sum of squared deviations, nonzero weight total), the
convolution-based implementation (`analysis_utils.calculate_morans_i`) and
the nested-loop implementation (`final_stats.calculate_morans_i`) return the
same result (over the exact rational arithmetic of this embedding). -/
theorem morans_i_implementations_agree (g : Grid) (_hN : 2 ≤ FinalStats.N g)
    (_hden : FinalStats.denom g ≠ 0) (_hW : FinalStats.W g ≠ 0) :
    AnalysisUtils.calculate_morans_i g = FinalStats.calculate_morans_i g := by
  unfold AnalysisUtils.calculate_morans_i FinalStats.calculate_morans_i
  rw [NA_eq_N, denomA_eq, WA_eq, numA_eq]

/-- Claim C9: each Moran implementation returns the undefined sentinel
(`none`, embedding `np.nan`) exactly when the valid-cell count is below 2,
or the sum of squared deviations is 0, or the weight total is 0; in every
other case it returns the computed value `(N / W) * (num / denom)`. -/
theorem metric_undefined_iff_thm (g : Grid) :
    FinalStats.calculate_morans_i g =
      (if FinalStats.N g < 2 ∨ FinalStats.denom g = 0 ∨ FinalStats.W g = 0 then
        none
      else
        some (((FinalStats.N g : ℚ) / FinalStats.W g) *
          (FinalStats.num g / FinalStats.denom g))) ∧
    AnalysisUtils.calculate_morans_i g =
      (if AnalysisUtils.N g < 2 ∨ AnalysisUtils.denom g = 0 ∨ AnalysisUtils.W g = 0 then
        none
      else
        some (((AnalysisUtils.N g : ℚ) / AnalysisUtils.W g) *
          (AnalysisUtils.num g / AnalysisUtils.denom g))) := by
  constructor
  · unfold FinalStats.calculate_morans_i
    by_cases h1 : FinalStats.N g < 2
    · rw [if_pos h1, if_pos (Or.inl h1)]
    · rw [if_neg h1]
      by_cases h2 : FinalStats.denom g = 0
      · rw [if_pos h2, if_pos (Or.inr (Or.inl h2))]
      · rw [if_neg h2]
        by_cases h3 : FinalStats.W g = 0
        · rw [if_pos h3, if_pos (Or.inr (Or.inr h3))]
        · rw [if_neg h3, if_neg (by tauto)]
  · unfold AnalysisUtils.calculate_morans_i
    by_cases h1 : AnalysisUtils.N g < 2
    · rw [if_pos h1, if_pos (Or.inl h1)]
    · rw [if_neg h1]
      by_cases h2 : AnalysisUtils.denom g = 0
      · rw [if_pos h2, if_pos (Or.inr (Or.inl h2))]
      · rw [if_neg h2]
        by_cases h3 : AnalysisUtils.W g = 0
        · rw [if_pos h3, if_pos (Or.inr (Or.inr h3))]
        · rw [if_neg h3, if_neg (by tauto)]

section TestGridEval

lemma testGrid_filter_eq :
    (testGrid.cells).filter (fun p => testGrid.mask p.1 p.2 = true) =
      ({((0 : ℤ), (0 : ℤ)), (0, 1), (1, 0), (1, 1)} : Finset (ℤ × ℤ)) := by
  decide

lemma testGrid_cells_eq :
    testGrid.cells = ({((0 : ℤ), (0 : ℤ)), (0, 1), (1, 0), (1, 1)} : Finset (ℤ × ℤ)) := by
  decide

lemma testGrid_N : FinalStats.N testGrid = 4 := by
  decide

lemma testGrid_mean : FinalStats.mean testGrid = 0 := by
  rw [FinalStats.mean, testGrid_filter_eq, testGrid_N]
  rw [Finset.sum_insert (by decide), Finset.sum_insert (by decide),
    Finset.sum_insert (by decide), Finset.sum_singleton]
  norm_num [testGrid, Grid.cellv]

lemma testGrid_denom : FinalStats.denom testGrid = 4 := by
  rw [FinalStats.denom, testGrid_mean, testGrid_filter_eq]
  rw [Finset.sum_insert (by decide), Finset.sum_insert (by decide),
    Finset.sum_insert (by decide), Finset.sum_singleton]
  norm_num [testGrid, Grid.cellv]

lemma testGrid_W : FinalStats.W testGrid = 12 := by
  rw [FinalStats.W, testGrid_cells_eq]
  rw [Finset.sum_insert (by decide), Finset.sum_insert (by decide),
    Finset.sum_insert (by decide), Finset.sum_singleton]
  norm_num [testGrid, Grid.mask, neighbors_offsets]

end TestGridEval

/-- Witness for the C3 theorem: the 2x2 checkerboard grid has 4 valid cells,
sum of squared deviations 4 and weight total 12, and the two
implementations agree on it. -/
theorem morans_i_implementations_agree_witness :
    2 ≤ FinalStats.N testGrid ∧ FinalStats.denom testGrid ≠ 0 ∧
    FinalStats.W testGrid ≠ 0 ∧
    AnalysisUtils.calculate_morans_i testGrid = FinalStats.calculate_morans_i testGrid :=
  ⟨by rw [testGrid_N]; omega,
    by rw [testGrid_denom]; norm_num,
    by rw [testGrid_W]; norm_num,
    morans_i_implementations_agree testGrid (by rw [testGrid_N]; omega)
      (by rw [testGrid_denom]; norm_num) (by rw [testGrid_W]; norm_num)⟩
